import Mathlib

/-
Verification of the mcp-central bridge engine (TypeScript) via a shallow
embedding in Lean 4.  The embedded components are:
  - src/types.ts   : namespacing (namespaceTools / parseNamespacedTool)
  - src/client.ts  : StdioClient request correlation state machine
  - src/manager.ts : McpManager (registry, listAllTools, callTool, connectAll)
  - src/router.ts  : Router.handleRequest dispatch
JavaScript strings are modelled as Lean String (with char-list data);
JavaScript runtime values (for params / arguments / schemas) are modelled by
the JsValue type below, including JS truthiness where the source relies on it.
Asynchronous effects (timers, process exit, stdout lines) are modelled as
explicit events acting on an explicit client state.
-/

set_option autoImplicit false

namespace McpCentral

/-- Model of a JavaScript runtime value, rich enough for the params handling
in router.ts (member access, truthiness, typeof checks).  JS numbers are
modelled as integers; NaN and non-integral floats play no role in the
embedded code paths. -/
inductive JsValue where
  | undefined : JsValue
  | null : JsValue
  | bool : Bool → JsValue
  | num : Int → JsValue
  | str : String → JsValue
  | arr : List JsValue → JsValue
  | obj : List (String × JsValue) → JsValue

/-- JS truthiness: undefined, null, false, 0 and the empty string are falsy. -/
def jsTruthy : JsValue → Bool
  | .undefined => false
  | .null => false
  | .bool b => b
  | .num n => n != 0
  | .str s => s != ""
  | .arr _ => true
  | .obj _ => true

/-- Member access `v.k`: field lookup on objects, undefined otherwise
(for the property names the source reads, non-object values have no such
own property). -/
def jsMember : JsValue → String → JsValue
  | .obj fields, k =>
    match fields.lookup k with
    | some v => v
    | none => .undefined
  | _, _ => .undefined

/-- Optional-chained member access `v?.k`: undefined when the receiver is
undefined or null, ordinary member access otherwise. -/
def jsOptMember (v : JsValue) (k : String) : JsValue :=
  match v with
  | .undefined => .undefined
  | .null => .undefined
  | _ => jsMember v k

/-- The check `typeof v === "string"`. -/
def jsIsString : JsValue → Bool
  | .str _ => true
  | _ => false

/-- Extraction of the underlying string after a `typeof`-narrowing (total,
with a default that is never reached on the guarded paths). -/
def jsAsString : JsValue → String
  | .str s => s
  | _ => ""

/-- JSON-RPC message id: `string | number` (the client only ever generates
numeric ids, but responses are matched against the full id type). -/
inductive RpcId where
  | num : Nat → RpcId
  | str : String → RpcId
deriving DecidableEq

/-- Tool content item (types.ts ToolContent).  Opaque to the bridge. -/
inductive ToolContent where
  | text : String → ToolContent
  | image : String → String → ToolContent
  | resource : String → Option String → Option String → Option String → ToolContent

/-- Result of a tool call (types.ts ToolCallResult). -/
structure ToolCallResult where
  content : List ToolContent
  isError : Option Bool := none

/-- Parameters of a delegated tools/call (types.ts ToolCallParams); the
arguments record is kept as an opaque JsValue. -/
structure ToolCallParams where
  name : String
  arguments : JsValue

/-- A tool as reported by a backend (types.ts Tool). -/
structure Tool where
  name : String
  description : Option String := none
  inputSchema : JsValue

/-- One usage record emitted by McpManager.callTool (logger.ts LogEntry,
minus the timestamp added by the external sink). -/
structure UsageRecord where
  mcp : String
  tool : String
  args : JsValue
  durationMs : Nat
  success : Bool
  error : Option String

/-- Backend configuration (types.ts McpServerConfig); command, args and env
are irrelevant to the embedded control flow and summarised by name/enabled. -/
structure McpServerConfig where
  name : String
  enabled : Bool

/- Namespacing (src/types.ts).  NAMESPACE_SEPARATOR = "__". -/

/-- Index of the first occurrence of the two-character separator "__" in a
character list; this is `namespaced.indexOf("__")` of the source. -/
def idxOfSepL : List Char → Option Nat
  | [] => none
  | c :: rest =>
    if c = '_' ∧ rest.head? = some '_' then some 0
    else (idxOfSepL rest).map (· + 1)

/-- Whether a string contains the separator "__" at all. -/
def containsSep (s : String) : Bool :=
  (idxOfSepL s.data).isSome

/-- namespaceTools of src/types.ts: join backend and tool name with "__". -/
def namespaceTools (mcpName toolName : String) : String :=
  mcpName ++ "__" ++ toolName

/-- parseNamespacedTool of src/types.ts: split at the FIRST occurrence of
"__"; null when the separator does not occur. -/
def parseNamespacedTool (namespaced : String) : Option (String × String) :=
  match idxOfSepL namespaced.data with
  | none => none
  | some idx => some (⟨namespaced.data.take idx⟩, ⟨namespaced.data.drop (idx + 2)⟩)

/- StdioClient (src/client.ts): request correlation state machine.
The asynchronous triggers of the source (a stdout line arriving, the 30 s
timer of one request firing, the child process exiting) are modelled as
events acting on an explicit state; the promise resolve/reject callbacks are
modelled by an append-only log of delivered completions. -/

/-- A parsed stdout line of the backend (JsonRpcResponse of types.ts). -/
structure LineMsg where
  id : Option RpcId := none
  result : Option JsValue := none
  error : Option (Int × String) := none

/-- How a pending request's promise was completed. -/
inductive Outcome where
  | resolved : LineMsg → Outcome
  | rejected : String → Outcome

/-- State of one StdioClient: whether a live process handle is held
(`this.process !== null`), the pending-request table (ids only; the
completion handles are the resolution log), the id counter, the log of
messages written to the child's stdin, and the log of completions delivered
to callers. -/
structure ClientSt where
  hasProcess : Bool
  pending : List RpcId
  nextId : Nat
  sent : List (Option RpcId × String)
  resolutions : List (RpcId × Outcome)

/-- Fresh client before start(): no process, empty table, counter at 1. -/
def ClientSt.fresh : ClientSt :=
  { hasProcess := false, pending := [], nextId := 1, sent := [], resolutions := [] }

/-- start() as far as correlation state is concerned: a process handle is
now held (spawn, stream wiring and handler registration carry no table
state). -/
def ClientSt.start (s : ClientSt) : ClientSt :=
  { s with hasProcess := true }

/-- The stdout line handler of start(): a blank or unparseable line (`none`)
is dropped; a parsed response with a defined id that is still pending
removes the entry and resolves it; any other message is ignored. -/
def ClientSt.handleLine (s : ClientSt) (parsed : Option LineMsg) : ClientSt :=
  match parsed with
  | none => s
  | some msg =>
    match msg.id with
    | none => s
    | some rid =>
      if rid ∈ s.pending then
        { s with pending := s.pending.filter (· ≠ rid),
                 resolutions := s.resolutions ++ [(rid, .resolved msg)] }
      else s

/-- The 30-second timeout callback of request() for id `rid` sent with
method `method`: if the entry is still pending it is removed and rejected
with a timeout error; otherwise nothing happens. -/
def ClientSt.handleTimeout (s : ClientSt) (rid : RpcId) (method : String) : ClientSt :=
  if rid ∈ s.pending then
    { s with pending := s.pending.filter (· ≠ rid),
             resolutions := s.resolutions ++ [(rid, .rejected ("Request timeout: " ++ method))] }
  else s

/-- The process exit handler of start(): every pending entry is rejected
with "Process exited" and the table is cleared. -/
def ClientSt.handleExit (s : ClientSt) : ClientSt :=
  { s with pending := [],
           resolutions := s.resolutions ++ s.pending.map (fun rid => (rid, .rejected "Process exited")) }

/-- The synchronous send phase of the private request(method) helper: with
no process handle it throws "Process not started"; otherwise it takes a
fresh numeric id, registers the pending entry and writes the request line. -/
def ClientSt.request (s : ClientSt) (method : String) : Except String (ClientSt × RpcId) :=
  if s.hasProcess then
    let rid := RpcId.num s.nextId
    .ok ({ s with nextId := s.nextId + 1,
                  pending := s.pending ++ [rid],
                  sent := s.sent ++ [(some rid, method)] }, rid)
  else .error "Process not started"

/-- The private notify(method) helper: with no process handle it returns
silently; otherwise it writes an id-less notification line. -/
def ClientSt.notify (s : ClientSt) (method : String) : ClientSt :=
  if s.hasProcess then { s with sent := s.sent ++ [(none, method)] }
  else s

/-- shutdown(): send a best-effort cancellation notification, kill the
process, drop the handle. -/
def ClientSt.shutdown (s : ClientSt) : ClientSt :=
  { s.notify "notifications/cancelled" with hasProcess := false }

/-- The send phase of StdioClient.initialize(). -/
def ClientSt.initSend (s : ClientSt) : Except String (ClientSt × RpcId) :=
  s.request "initialize"

/-- The send phase of StdioClient.listTools(). -/
def ClientSt.listToolsSend (s : ClientSt) : Except String (ClientSt × RpcId) :=
  s.request "tools/list"

/-- The send phase of StdioClient.callTool(params). -/
def ClientSt.callToolSend (s : ClientSt) : Except String (ClientSt × RpcId) :=
  s.request "tools/call"

/-- The completions delivered so far for a given id, in delivery order. -/
def ClientSt.resolutionsFor (s : ClientSt) (rid : RpcId) : List Outcome :=
  (s.resolutions.filter (fun p => p.1 = rid)).map (·.2)

/- McpManager (src/manager.ts).  The registry `clients : Map<string,
StdioClient>` is modelled as an association list in insertion order (the
iteration order of a JS Map).  A registered client contributes its stored
tool catalog; the behaviour of a delegated StdioClient.callTool is supplied
as an oracle, and the delegated invocations are logged so that theorems can
state that no Transport was reached. -/

/-- A fully connected backend as seen by the manager: its stored catalog. -/
structure ClientConn where
  tools : List Tool

/-- The manager registry: backend name to connection, in insertion order. -/
abbrev ManagerState := List (String × ClientConn)

/-- Map.get: the entry for a key, if present (keys are unique in a Map, so
the first match is the entry). -/
def lookupClient (st : ManagerState) (k : String) : Option ClientConn :=
  match st with
  | [] => none
  | (k', c) :: rest => if k' = k then some c else lookupClient rest k

/-- Map.set: overwrite in place if the key is present, append otherwise. -/
def ManagerState.set (st : ManagerState) (k : String) (c : ClientConn) : ManagerState :=
  match st with
  | [] => [(k, c)]
  | (k', c') :: rest => if k' = k then (k, c) :: rest else (k', c') :: ManagerState.set rest k c

/-- The backend names of the registry, in insertion order. -/
def ManagerState.keys (st : ManagerState) : List String :=
  st.map (·.1)

/-- McpManager.listAllTools: flatten every registered backend's catalog in
registration order, rewriting each name to `{backend}__{tool}` and
prefixing the description with `[{backend}] ` when `tool.description` is
truthy (the source's ternary `tool.description ? ... : undefined`, so an
empty-string description is also mapped to undefined). -/
def listAllTools (st : ManagerState) : List Tool :=
  st.flatMap fun p =>
    p.2.tools.map fun tool =>
      { name := namespaceTools p.1 tool.name
        description :=
          match tool.description with
          | some d => if d = "" then none else some ("[" ++ p.1 ++ "] " ++ d)
          | none => none
        inputSchema := tool.inputSchema }

/-- McpManager.callTool(namespacedName, args).  The delegated
StdioClient.callTool is the oracle `delegate` (indexed by backend name);
`dur` abstracts the wall-clock duration Date.now() measures around the
delegated call.  Returns the outcome (result or thrown error message), the
usage records emitted via logToolCall, and the log of delegated Transport
invocations. -/
def managerCallTool (st : ManagerState)
    (delegate : String → ToolCallParams → Except String ToolCallResult)
    (dur : Nat) (namespacedName : String) (args : JsValue) :
    Except String ToolCallResult × List UsageRecord × List (String × ToolCallParams) :=
  match parseNamespacedTool namespacedName with
  | none => (.error ("Invalid tool name format: " ++ namespacedName), [], [])
  | some parsed =>
    match lookupClient st parsed.1 with
    | none => (.error ("MCP server '" ++ parsed.1 ++ "' not connected"), [], [])
    | some _ =>
      let params : ToolCallParams := { name := parsed.2, arguments := args }
      match delegate parsed.1 params with
      | .ok result =>
        let success : Bool :=
          match result.isError with
          | some true => false
          | _ => true
        (.ok result,
         [{ mcp := parsed.1, tool := parsed.2, args := args, durationMs := dur,
            success := success, error := none }],
         [(parsed.1, params)])
      | .error e =>
        (.error e,
         [{ mcp := parsed.1, tool := parsed.2, args := args, durationMs := dur,
            success := false, error := some e }],
         [(parsed.1, params)])

/-- Outcome of one attempted backend connection, as the oracle for
McpManager.connect: failure at the spawn step, at the initialize handshake,
at tools/list discovery, or full success with the discovered catalog. -/
inductive ConnectSteps where
  | startFail : String → ConnectSteps
  | handshakeFail : String → ConnectSteps
  | discoveryFail : String → ConnectSteps
  | ok : List Tool → ConnectSteps

/-- McpManager.connect(config): start, handshake and discovery must all
succeed before the backend is stored in the registry; any failure throws
and leaves the registry untouched. -/
def managerConnect (st : ManagerState) (outcome : ConnectSteps)
    (cfg : McpServerConfig) : Except String ManagerState :=
  match outcome with
  | .startFail e => .error e
  | .handshakeFail e => .error ("Initialize failed: " ++ e)
  | .discoveryFail e => .error ("tools/list failed: " ++ e)
  | .ok tools => .ok (st.set cfg.name { tools := tools })

/-- One caught connect attempt of the connectAll loop: a thrown failure is
caught (and reported to stderr), leaving the registry as it was. -/
def connectStep (outcome : McpServerConfig → ConnectSteps)
    (acc : ManagerState) (cfg : McpServerConfig) : ManagerState :=
  match managerConnect acc (outcome cfg) cfg with
  | .ok acc' => acc'
  | .error _ => acc

/-- McpManager.connectAll(config): iterate the enabled configs in order,
attempting connect on each; a thrown failure is caught and reported and the
iteration continues with the next config. -/
def managerConnectAll (st : ManagerState) (outcome : McpServerConfig → ConnectSteps)
    (servers : List McpServerConfig) : ManagerState :=
  (servers.filter (·.enabled)).foldl (connectStep outcome) st

/- Router (src/router.ts). -/

/-- JSON-RPC error codes of types.ts ErrorCodes. -/
def METHOD_NOT_FOUND : Int := -32601
/-- Invalid-params error code. -/
def INVALID_PARAMS : Int := -32602
/-- Internal-error code. -/
def INTERNAL_ERROR : Int := -32603

/-- The result payload of a successful router response; the fixed
initialize payload and the empty object are summarised by dedicated
constructors, tools/list and tools/call carry their data. -/
inductive RpcResult where
  | emptyObj : RpcResult
  | initInfo : RpcResult
  | toolsList : List Tool → RpcResult
  | callResult : ToolCallResult → RpcResult

/-- A response produced by Router.handleRequest (JsonRpcResponse shape:
exactly one of result / error is set by the embedded handlers). -/
structure RpcResponse where
  id : Option RpcId
  result : Option RpcResult := none
  error : Option (Int × String) := none

/-- An incoming request as seen by Router.handleRequest; params is the raw
JS value (undefined when absent). -/
structure RpcRequest where
  id : Option RpcId := none
  method : String
  params : JsValue := .undefined

/-- The `(params.arguments as Record<string, unknown>) ?? {}` expression:
nullish coalescing of the arguments member to the empty object. -/
def routerArgs (params : JsValue) : JsValue :=
  match jsMember params "arguments" with
  | .undefined => .obj []
  | .null => .obj []
  | v => v

/-- Router.handleToolsCall: validate `params?.name` (truthy and a string),
then delegate to McpManager.callTool, mapping a thrown failure to an
internal error and forwarding a returned result unchanged.  The second
component logs the (name, args) of every Manager invocation made. -/
def handleToolsCall (st : ManagerState)
    (delegate : String → ToolCallParams → Except String ToolCallResult) (dur : Nat)
    (id : Option RpcId) (params : JsValue) :
    RpcResponse × List (String × JsValue) :=
  let nameV := jsOptMember params "name"
  if jsTruthy nameV && jsIsString nameV then
    let n := jsAsString nameV
    let args := routerArgs params
    match (managerCallTool st delegate dur n args).1 with
    | .ok result => ({ id := id, result := some (.callResult result) }, [(n, args)])
    | .error e => ({ id := id, error := some (INTERNAL_ERROR, e) }, [(n, args)])
  else
    ({ id := id, error := some (INVALID_PARAMS, "Missing 'name' in tools/call params") }, [])

/-- Router.handleRequest: dispatch on the method string.  The second
component logs the (name, args) of every Manager.callTool invocation. -/
def handleRequest (st : ManagerState)
    (delegate : String → ToolCallParams → Except String ToolCallResult) (dur : Nat)
    (req : RpcRequest) : RpcResponse × List (String × JsValue) :=
  match req.method with
  | "initialize" => ({ id := req.id, result := some .initInfo }, [])
  | "notifications/initialized" => ({ id := req.id, result := some .emptyObj }, [])
  | "tools/list" => ({ id := req.id, result := some (.toolsList (listAllTools st)) }, [])
  | "tools/call" => handleToolsCall st delegate dur req.id req.params
  | "ping" => ({ id := req.id, result := some .emptyObj }, [])
  | m => ({ id := req.id, error := some (METHOD_NOT_FOUND, "Method not found: " ++ m) }, [])

/- Spec-side definitions, for refinement comparison.  These are written from
the words of the specification (not from the source) and are compared with
the source-derived definitions above. -/

/-- Tool listing as claim C5 literally words it: the exported description is
the prefixed description whenever the tool HAS a description (the empty
description included), and absent only when the tool has none. -/
def listAllToolsClaimed (st : ManagerState) : List Tool :=
  st.flatMap fun p =>
    p.2.tools.map fun tool =>
      { name := namespaceTools p.1 tool.name
        description := tool.description.map (fun d => "[" ++ p.1 ++ "] " ++ d)
        inputSchema := tool.inputSchema }

/-- Tool listing as the amended claim words it: the exported description is
the prefixed description whenever the tool has a NON-EMPTY description, and
absent when the description is missing or empty. -/
def listAllToolsSpec (st : ManagerState) : List Tool :=
  st.flatMap fun p =>
    p.2.tools.map fun tool =>
      { name := namespaceTools p.1 tool.name
        description :=
          (tool.description.filter (fun d => d ≠ "")).map (fun d => "[" ++ p.1 ++ "] " ++ d)
        inputSchema := tool.inputSchema }

/- Concrete fixtures used by the witness theorems. -/

/-- A client with one request (id 1) in flight. -/
def wClient : ClientSt :=
  { hasProcess := true, pending := [.num 1], nextId := 2, sent := [(some (.num 1), "tools/call")],
    resolutions := [] }

/-- A parsed backend response line answering request id 1. -/
def wMsg : LineMsg :=
  { id := some (.num 1), result := some (.obj []) }

/-- A client with three requests in flight. -/
def wClient3 : ClientSt :=
  { hasProcess := true, pending := [.num 1, .num 2, .num 3], nextId := 4,
    sent := [(some (.num 1), "tools/call"), (some (.num 2), "tools/call"),
             (some (.num 3), "tools/call")],
    resolutions := [] }

/-- A registry with one backend "b" exporting one tool "t". -/
def wRegistry : ManagerState :=
  [("b", { tools := [{ name := "t", description := some "d", inputSchema := .obj [] }] })]

/-- A delegate oracle whose calls always succeed with an empty result. -/
def wDelegateOk : String → ToolCallParams → Except String ToolCallResult :=
  fun _ _ => .ok { content := [] }

/-- A delegate oracle whose calls always succeed with a payload-level error
flag set. -/
def wDelegateIsErr : String → ToolCallParams → Except String ToolCallResult :=
  fun _ _ => .ok { content := [], isError := some true }

/-- A delegate oracle whose calls always throw. -/
def wDelegateThrow : String → ToolCallParams → Except String ToolCallResult :=
  fun _ _ => .error "boom"

/-- Three enabled backend configs. -/
def wCfgA : McpServerConfig := { name := "a", enabled := true }
/-- Second config. -/
def wCfgB : McpServerConfig := { name := "b", enabled := true }
/-- Third config. -/
def wCfgC : McpServerConfig := { name := "c", enabled := true }

/-- A connection oracle under which backend "b" fails to spawn and the
others connect with a one-tool catalog. -/
def wOutcome : McpServerConfig → ConnectSteps :=
  fun cfg =>
    if cfg.name = "b" then .startFail "spawn ENOENT"
    else .ok [{ name := "t", description := none, inputSchema := .obj [] }]

/- Lemmas about the separator index. -/

/-- Unfolding equation of idxOfSepL on a cons cell. -/
theorem idxOfSepL_cons (c : Char) (l : List Char) :
    idxOfSepL (c :: l) =
      if c = '_' ∧ l.head? = some '_' then some 0 else (idxOfSepL l).map (· + 1) := rfl

/-- If a character list holds no "__" and does not end in '_', then
appending one '_' still yields no "__". -/
theorem idxOfSepL_snoc_none (a : List Char)
    (hsep : idxOfSepL a = none) (hlast : a.getLast? ≠ some '_') :
    idxOfSepL (a ++ ['_']) = none := by
  induction a with
  | nil => simp [idxOfSepL]
  | cons c a ih =>
    rw [idxOfSepL_cons] at hsep
    rw [List.cons_append, idxOfSepL_cons]
    cases a with
    | nil =>
      have hc : c ≠ '_' := by
        intro h
        exact hlast (by simp [h])
      simp [idxOfSepL, hc]
    | cons d a' =>
      have hlast' : (d :: a').getLast? ≠ some '_' := by
        simpa using hlast
      by_cases hc : c = '_' ∧ ((d :: a') ++ ['_']).head? = some '_'
      · exfalso
        have hc' : c = '_' ∧ (d :: a').head? = some '_' := ⟨hc.1, by simpa using hc.2⟩
        rw [if_pos hc'] at hsep
        exact Option.noConfusion hsep
      · rw [if_neg hc]
        have hc2 : ¬ (c = '_' ∧ (d :: a').head? = some '_') := by
          intro h
          exact hc ⟨h.1, by simpa using h.2⟩
        rw [if_neg hc2] at hsep
        have hrest : idxOfSepL (d :: a') = none := by
          cases hidx : idxOfSepL (d :: a') with
          | none => rfl
          | some n => rw [hidx] at hsep; simp at hsep
        rw [ih hrest hlast']
        simp

/-- If appending one '_' to `a` still yields no "__", then the first "__"
of `a ++ "__" ++ b` sits exactly at index `a.length`. -/
theorem idxOfSepL_append_sep (a b : List Char)
    (h : idxOfSepL (a ++ ['_']) = none) :
    idxOfSepL (a ++ '_' :: '_' :: b) = some a.length := by
  induction a with
  | nil => simp [idxOfSepL]
  | cons c a ih =>
    rw [List.cons_append] at h
    rw [List.cons_append, idxOfSepL_cons]
    rw [idxOfSepL_cons] at h
    by_cases hc : c = '_' ∧ (a ++ '_' :: '_' :: b).head? = some '_'
    · exfalso
      have hc' : c = '_' ∧ (a ++ ['_']).head? = some '_' := by
        refine ⟨hc.1, ?_⟩
        have h2 := hc.2
        cases a <;> simp_all
      rw [if_pos hc'] at h
      exact Option.noConfusion h
    · rw [if_neg hc]
      have hc2 : ¬ (c = '_' ∧ (a ++ ['_']).head? = some '_') := by
        intro h'
        refine hc ⟨h'.1, ?_⟩
        have h2 := h'.2
        cases a <;> simp_all
      rw [if_neg hc2] at h
      have ha : idxOfSepL (a ++ ['_']) = none := by
        cases hidx : idxOfSepL (a ++ ['_']) with
        | none => rfl
        | some n => rw [hidx] at h; simp at h
      rw [ih ha]
      simp

/-- Appending strings concatenates their character data. -/
theorem strData_append (a b : String) : (a ++ b).data = a.data ++ b.data := by
  cases a; cases b; rfl

/-- Character data of a namespaced name. -/
theorem namespaceTools_data (s t : String) :
    (namespaceTools s t).data = s.data ++ '_' :: '_' :: t.data := by
  show (s ++ "__" ++ t).data = _
  rw [strData_append, strData_append]
  have hsep : ("__" : String).data = ['_', '_'] := rfl
  rw [hsep]
  simp

/-- C6 (amended): splitting at the first "__" is the left inverse of
joining, for every backend segment that contains no "__" AND does not end
in '_' (a trailing '_' merges with the separator and shifts the first
occurrence left), and every tool segment, separators allowed. -/
theorem C6_split_join_left_inverse (s t : String)
    (hsep : containsSep s = false) (hlast : s.data.getLast? ≠ some '_') :
    parseNamespacedTool (namespaceTools s t) = some (s, t) := by
  have hnone : idxOfSepL s.data = none := by
    unfold containsSep at hsep
    cases hidx : idxOfSepL s.data with
    | none => rfl
    | some n => rw [hidx] at hsep; simp at hsep
  have hsnoc := idxOfSepL_snoc_none s.data hnone hlast
  have hidx : idxOfSepL (s.data ++ '_' :: '_' :: t.data) = some s.data.length :=
    idxOfSepL_append_sep s.data t.data hsnoc
  have htake : (s.data ++ '_' :: '_' :: t.data).take s.data.length = s.data :=
    List.take_left s.data ('_' :: '_' :: t.data)
  have hdrop : (s.data ++ '_' :: '_' :: t.data).drop (s.data.length + 2) = t.data := by
    have hre : s.data ++ '_' :: '_' :: t.data = (s.data ++ ['_', '_']) ++ t.data := by
      simp
    rw [hre]
    exact List.drop_left' (by simp)
  simp only [parseNamespacedTool, namespaceTools_data, hidx, htake, hdrop]

/- Lemmas about the client event handlers. -/

/-- Effect of the line handler when the response id is still pending. -/
theorem handleLine_mem (s : ClientSt) (msg : LineMsg) (rid : RpcId)
    (hid : msg.id = some rid) (hp : rid ∈ s.pending) :
    s.handleLine (some msg) =
      { s with pending := s.pending.filter (· ≠ rid),
               resolutions := s.resolutions ++ [(rid, .resolved msg)] } := by
  simp only [ClientSt.handleLine, hid]
  rw [if_pos hp]

/-- Effect of the line handler when the response id is no longer pending. -/
theorem handleLine_not_mem (s : ClientSt) (msg : LineMsg) (rid : RpcId)
    (hid : msg.id = some rid) (hp : rid ∉ s.pending) :
    s.handleLine (some msg) = s := by
  simp only [ClientSt.handleLine, hid]
  rw [if_neg hp]

/-- Effect of the timeout callback when the id is still pending. -/
theorem handleTimeout_mem (s : ClientSt) (rid : RpcId) (method : String)
    (hp : rid ∈ s.pending) :
    s.handleTimeout rid method =
      { s with pending := s.pending.filter (· ≠ rid),
               resolutions := s.resolutions ++ [(rid, .rejected ("Request timeout: " ++ method))] } := by
  unfold ClientSt.handleTimeout
  rw [if_pos hp]

/-- Effect of the timeout callback when the id is no longer pending. -/
theorem handleTimeout_not_mem (s : ClientSt) (rid : RpcId) (method : String)
    (hp : rid ∉ s.pending) :
    s.handleTimeout rid method = s := by
  unfold ClientSt.handleTimeout
  rw [if_neg hp]

/-- An id never survives its own removal from the pending table. -/
theorem not_mem_filter_ne (l : List RpcId) (rid : RpcId) :
    rid ∉ l.filter (· ≠ rid) := by
  simp [List.mem_filter]

/-- Appending one completion for `rid` extends exactly the completion lists
for `rid`. -/
theorem resolutionsFor_append_self (s : ClientSt) (pend : List RpcId) (rid : RpcId)
    (o : Outcome) :
    ClientSt.resolutionsFor
      { s with pending := pend, resolutions := s.resolutions ++ [(rid, o)] } rid =
      s.resolutionsFor rid ++ [o] := by
  simp [ClientSt.resolutionsFor, List.filter_append]

/- Claim theorems. -/

/-- C1: for a pending request id, resolution happens at most once.  If the
timeout fires first, the entry is removed and exactly one timeout rejection
is delivered, and the later arrival of the real response changes nothing;
if the response arrives first, the entry is removed and exactly one
resolution is delivered, and the later timeout firing changes nothing. -/
theorem C1_pending_resolution_race (s : ClientSt) (rid : RpcId) (method : String)
    (msg : LineMsg) (hp : rid ∈ s.pending) (hid : msg.id = some rid) :
    rid ∉ (s.handleTimeout rid method).pending ∧
    (s.handleTimeout rid method).resolutionsFor rid =
      s.resolutionsFor rid ++ [.rejected ("Request timeout: " ++ method)] ∧
    (s.handleTimeout rid method).handleLine (some msg) = s.handleTimeout rid method ∧
    rid ∉ (s.handleLine (some msg)).pending ∧
    (s.handleLine (some msg)).resolutionsFor rid = s.resolutionsFor rid ++ [.resolved msg] ∧
    (s.handleLine (some msg)).handleTimeout rid method = s.handleLine (some msg) := by
  have hT := handleTimeout_mem s rid method hp
  have hL := handleLine_mem s msg rid hid hp
  have hTp : rid ∉ (s.handleTimeout rid method).pending := by
    rw [hT]; exact not_mem_filter_ne s.pending rid
  have hLp : rid ∉ (s.handleLine (some msg)).pending := by
    rw [hL]; exact not_mem_filter_ne s.pending rid
  refine ⟨hTp, ?_, ?_, hLp, ?_, ?_⟩
  · rw [hT]; exact resolutionsFor_append_self s _ rid _
  · exact handleLine_not_mem _ msg rid hid hTp
  · rw [hL]; exact resolutionsFor_append_self s _ rid _
  · exact handleTimeout_not_mem _ rid method hLp

/-- Witness for C1 on a concrete client with request id 1 pending. -/
theorem C1_witness :
    RpcId.num 1 ∈ wClient.pending ∧ wMsg.id = some (.num 1) ∧
    (RpcId.num 1 ∉ (wClient.handleTimeout (.num 1) "tools/call").pending ∧
     (wClient.handleTimeout (.num 1) "tools/call").resolutionsFor (.num 1) =
       wClient.resolutionsFor (.num 1) ++ [.rejected ("Request timeout: " ++ "tools/call")] ∧
     (wClient.handleTimeout (.num 1) "tools/call").handleLine (some wMsg) =
       wClient.handleTimeout (.num 1) "tools/call" ∧
     RpcId.num 1 ∉ (wClient.handleLine (some wMsg)).pending ∧
     (wClient.handleLine (some wMsg)).resolutionsFor (.num 1) =
       wClient.resolutionsFor (.num 1) ++ [.resolved wMsg] ∧
     (wClient.handleLine (some wMsg)).handleTimeout (.num 1) "tools/call" =
       wClient.handleLine (some wMsg)) :=
  ⟨by decide, rfl, C1_pending_resolution_race wClient (.num 1) "tools/call" wMsg (by decide) rfl⟩

/-- C2: the process-exit handler fails every pending entry with a
process-exited error and clears the table: afterwards no entry remains,
every previously pending id has received a "Process exited" rejection, the
number of completions grows by exactly the number of pending entries, and
no other completion is delivered. -/
theorem C2_exit_fails_all_pending (s : ClientSt) :
    s.handleExit.pending = [] ∧
    (∀ rid, rid ∈ s.pending →
      Outcome.rejected "Process exited" ∈ s.handleExit.resolutionsFor rid) ∧
    s.handleExit.resolutions.length = s.resolutions.length + s.pending.length ∧
    (∀ p, p ∈ s.handleExit.resolutions →
      p ∈ s.resolutions ∨ (p.1 ∈ s.pending ∧ p.2 = .rejected "Process exited")) := by
  refine ⟨rfl, ?_, by simp [ClientSt.handleExit], ?_⟩
  · intro rid hrid
    simp only [ClientSt.handleExit, ClientSt.resolutionsFor, List.filter_append,
      List.map_append, List.mem_append]
    right
    simp only [List.mem_map, List.mem_filter]
    refine ⟨(rid, .rejected "Process exited"), ⟨?_, by simp⟩, rfl⟩
    exact ⟨rid, hrid, rfl⟩
  · intro p hp
    simp only [ClientSt.handleExit, List.mem_append] at hp
    rcases hp with h | h
    · exact Or.inl h
    · right
      rcases List.mem_map.mp h with ⟨rid, hrid, heq⟩
      constructor
      · rw [← heq]; exact hrid
      · rw [← heq]

/-- Witness for C2 on a concrete client with three requests in flight. -/
theorem C2_witness :
    wClient3.handleExit.pending = [] ∧
    (RpcId.num 2 ∈ wClient3.pending) ∧
    Outcome.rejected "Process exited" ∈ wClient3.handleExit.resolutionsFor (.num 2) ∧
    wClient3.handleExit.resolutions.length =
      wClient3.resolutions.length + wClient3.pending.length :=
  ⟨(C2_exit_fails_all_pending wClient3).1, by decide,
   (C2_exit_fails_all_pending wClient3).2.1 (.num 2) (by decide),
   (C2_exit_fails_all_pending wClient3).2.2.1⟩

/-- Witness for C6 on the spec's own example: backend "github", tool
"create__issue". -/
theorem C6_witness :
    containsSep "github" = false ∧ "github".data.getLast? ≠ some '_' ∧
    parseNamespacedTool (namespaceTools "github" "create__issue") =
      some ("github", "create__issue") :=
  ⟨rfl, by decide, C6_split_join_left_inverse "github" "create__issue" rfl (by decide)⟩

/-- Counterexample to C6 as stated: the backend name "a_" contains no "__",
yet join gives "a___x" whose first "__" sits at index 1, so the split
returns ("a", "_x") instead of ("a_", "x"). -/
theorem C6_counterexample :
    containsSep "a_" = false ∧
    parseNamespacedTool (namespaceTools "a_" "x") = some ("a", "_x") ∧
    parseNamespacedTool (namespaceTools "a_" "x") ≠ some ("a_", "x") :=
  ⟨rfl, rfl, by decide⟩

/-- C9 (amended): after shutdown() the transport holds no process handle,
so every request-bearing send — the initialize, tools/list and tools/call
send phases, and the underlying request helper on any method — fails with
the process-not-started error rather than hanging; an outgoing
notification, however, is silently dropped by the notify guard. -/
theorem C9_shutdown_makes_unusable (s : ClientSt) (method : String) :
    s.shutdown.hasProcess = false ∧
    s.shutdown.request method = .error "Process not started" ∧
    s.shutdown.initSend = .error "Process not started" ∧
    s.shutdown.listToolsSend = .error "Process not started" ∧
    s.shutdown.callToolSend = .error "Process not started" ∧
    s.shutdown.notify method = s.shutdown :=
  ⟨rfl, rfl, rfl, rfl, rfl, rfl⟩

/-- Counterexample to C9 as stated: after shutdown, an outgoing
notification does NOT fail — notify has no failure channel and leaves the
whole state, including the log of lines written to the child process,
unchanged: a silent no-op. -/
theorem C9_counterexample :
    ClientSt.fresh.start.shutdown.notify "notifications/initialized" =
      ClientSt.fresh.start.shutdown ∧
    (ClientSt.fresh.start.shutdown.notify "notifications/initialized").sent =
      ClientSt.fresh.start.shutdown.sent :=
  ⟨rfl, rfl⟩

/-- C4: Manager.callTool fails before any Transport is reached in both
pre-delegation cases: a name containing no "__" yields the invalid-format
error, and a parsed name whose backend segment is not in the registry
yields the not-connected error; in both cases no delegated call is made
and no usage record is emitted (the registry is only read — the model is a
pure function of it, so no state can change). -/
theorem C4_predelegation_failures (st : ManagerState)
    (delegate : String → ToolCallParams → Except String ToolCallResult)
    (dur : Nat) (name : String) (args : JsValue) :
    (containsSep name = false →
      managerCallTool st delegate dur name args =
        (.error ("Invalid tool name format: " ++ name), [], [])) ∧
    (∀ m t, parseNamespacedTool name = some (m, t) → lookupClient st m = none →
      managerCallTool st delegate dur name args =
        (.error ("MCP server '" ++ m ++ "' not connected"), [], [])) := by
  constructor
  · intro h
    have hparse : parseNamespacedTool name = none := by
      unfold containsSep at h
      unfold parseNamespacedTool
      cases hidx : idxOfSepL name.data with
      | none => rfl
      | some n => rw [hidx] at h; simp at h
    simp only [managerCallTool, hparse]
  · intro m t hparse hlook
    simp only [managerCallTool, hparse, hlook]

/-- Witness for C4: "plain" has no separator; "ghost__t" parses but backend
"ghost" is not registered in the one-backend registry. -/
theorem C4_witness :
    containsSep "plain" = false ∧
    parseNamespacedTool "ghost__t" = some ("ghost", "t") ∧
    lookupClient wRegistry "ghost" = none ∧
    managerCallTool wRegistry wDelegateOk 5 "plain" (.obj []) =
      (.error ("Invalid tool name format: " ++ "plain"), [], []) ∧
    managerCallTool wRegistry wDelegateOk 5 "ghost__t" (.obj []) =
      (.error ("MCP server '" ++ "ghost" ++ "' not connected"), [], []) :=
  ⟨rfl, rfl, rfl,
   (C4_predelegation_failures wRegistry wDelegateOk 5 "plain" (.obj [])).1 rfl,
   (C4_predelegation_failures wRegistry wDelegateOk 5 "ghost__t" (.obj [])).2
     "ghost" "t" rfl rfl⟩

/-- C3: once the name parses and the backend is registered, exactly one
usage record is emitted on both exit paths; its success flag is false
exactly when the delegated call threw or the returned result carries
isError = true, and the delegated outcome — result value or thrown error —
propagates to the caller unchanged. -/
theorem C3_usage_record_exactly_once (st : ManagerState)
    (delegate : String → ToolCallParams → Except String ToolCallResult)
    (dur : Nat) (name : String) (args : JsValue) (m t : String) (c : ClientConn)
    (hparse : parseNamespacedTool name = some (m, t))
    (hconn : lookupClient st m = some c) :
    (∀ result, delegate m { name := t, arguments := args } = .ok result →
      (managerCallTool st delegate dur name args).1 = .ok result ∧
      ∃ u, (managerCallTool st delegate dur name args).2.1 = [u] ∧
        (u.success = false ↔ result.isError = some true) ∧
        u.mcp = m ∧ u.tool = t ∧ u.error = none) ∧
    (∀ e, delegate m { name := t, arguments := args } = .error e →
      (managerCallTool st delegate dur name args).1 = .error e ∧
      ∃ u, (managerCallTool st delegate dur name args).2.1 = [u] ∧
        u.success = false ∧ u.mcp = m ∧ u.tool = t ∧ u.error = some e) := by
  constructor
  · intro result hok
    have hEval : managerCallTool st delegate dur name args =
        (.ok result,
         [{ mcp := m, tool := t, args := args, durationMs := dur,
            success := match result.isError with | some true => false | _ => true,
            error := none }],
         [(m, { name := t, arguments := args })]) := by
      simp only [managerCallTool, hparse, hconn, hok]
    rw [hEval]
    refine ⟨rfl, ⟨_, rfl, ?_, rfl, rfl, rfl⟩⟩
    cases hE : result.isError with
    | none => simp
    | some b => cases b <;> simp
  · intro e herr
    have hEval : managerCallTool st delegate dur name args =
        (.error e,
         [{ mcp := m, tool := t, args := args, durationMs := dur,
            success := false, error := some e }],
         [(m, { name := t, arguments := args })]) := by
      simp only [managerCallTool, hparse, hconn, herr]
    rw [hEval]
    exact ⟨rfl, ⟨_, rfl, rfl, rfl, rfl, rfl⟩⟩

/-- Witness for C3: backend "b" with tool "t" in the registry, exercised on
a throwing delegate and discharging the parse and lookup hypotheses. -/
theorem C3_witness :
    parseNamespacedTool "b__t" = some ("b", "t") ∧
    lookupClient wRegistry "b" =
      some { tools := [{ name := "t", description := some "d", inputSchema := .obj [] }] } ∧
    ((managerCallTool wRegistry wDelegateThrow 5 "b__t" (.obj [])).1 = .error "boom" ∧
      ∃ u, (managerCallTool wRegistry wDelegateThrow 5 "b__t" (.obj [])).2.1 = [u] ∧
        u.success = false ∧ u.mcp = "b" ∧ u.tool = "t" ∧ u.error = some "boom") :=
  ⟨rfl, rfl,
   (C3_usage_record_exactly_once wRegistry wDelegateThrow 5 "b__t" (.obj []) "b" "t"
      { tools := [{ name := "t", description := some "d", inputSchema := .obj [] }] }
      rfl rfl).2 "boom" rfl⟩

/-- C5 (amended): listAllTools exports, per registered backend in
registration order and per tool in reported order, exactly one entry named
{backend}__{tool} with the inputSchema passed through; the description is
the "[{backend}] "-prefixed description when the tool has a NON-EMPTY
description, and is absent when the description is missing or empty.  The
registry is only read (the model is a pure function of it), so no stored
catalog is mutated. -/
theorem C5_list_all_tools (st : ManagerState) :
    listAllTools st = listAllToolsSpec st := by
  unfold listAllTools listAllToolsSpec
  induction st with
  | nil => rfl
  | cons p rest ih =>
    simp only [List.flatMap_cons]
    rw [ih]
    congr 1
    apply List.map_congr_left
    intro tool _
    cases hd : tool.description with
    | none => rfl
    | some d =>
      by_cases he : d = ""
      · simp [he, Option.filter]
      · simp [he, Option.filter]

/-- Counterexample to C5 as stated: a tool whose reported description is
the empty string HAS a description, yet the exported entry carries none —
the source's truthiness test `tool.description ? ... : undefined` drops
it. -/
theorem C5_counterexample :
    listAllTools
        [("b", { tools := [{ name := "t", description := some "", inputSchema := .obj [] }] })] ≠
      listAllToolsClaimed
        [("b", { tools := [{ name := "t", description := some "", inputSchema := .obj [] }] })] := by
  intro h
  simp [listAllTools, listAllToolsClaimed, namespaceTools] at h

/-- C7: for tools/call, a missing or non-string params.name yields the
invalid-params error without invoking the Manager; a Manager.callTool that
throws yields an internal error carrying its message; a returned result is
forwarded unchanged as a successful response — any payload-level isError
travels inside the result and is never promoted to a protocol error. -/
theorem C7_tools_call_routing (st : ManagerState)
    (delegate : String → ToolCallParams → Except String ToolCallResult)
    (dur : Nat) (id : Option RpcId) (params : JsValue) :
    (jsIsString (jsOptMember params "name") = false →
      handleRequest st delegate dur { id := id, method := "tools/call", params := params } =
        ({ id := id, error := some (INVALID_PARAMS, "Missing 'name' in tools/call params") }, [])) ∧
    (∀ n, jsOptMember params "name" = .str n → n ≠ "" →
      (∀ e, (managerCallTool st delegate dur n (routerArgs params)).1 = .error e →
        handleRequest st delegate dur { id := id, method := "tools/call", params := params } =
          ({ id := id, error := some (INTERNAL_ERROR, e) }, [(n, routerArgs params)])) ∧
      (∀ r, (managerCallTool st delegate dur n (routerArgs params)).1 = .ok r →
        handleRequest st delegate dur { id := id, method := "tools/call", params := params } =
          ({ id := id, result := some (.callResult r) }, [(n, routerArgs params)]))) := by
  have hreq : handleRequest st delegate dur { id := id, method := "tools/call", params := params } =
      handleToolsCall st delegate dur id params := rfl
  constructor
  · intro hns
    rw [hreq]
    unfold handleToolsCall
    dsimp only
    have hcond : (jsTruthy (jsOptMember params "name") &&
        jsIsString (jsOptMember params "name")) = false := by
      rw [hns, Bool.and_false]
    rw [hcond]
    rfl
  · intro n hn hne
    have htr : jsTruthy (jsOptMember params "name") = true := by
      rw [hn]
      simpa [jsTruthy] using hne
    have hstr : jsIsString (jsOptMember params "name") = true := by
      rw [hn]; rfl
    have hname : jsAsString (jsOptMember params "name") = n := by
      rw [hn]; rfl
    constructor
    · intro e he
      rw [hreq]
      unfold handleToolsCall
      dsimp only
      rw [htr, hstr, Bool.true_and, if_pos rfl, hname, he]
    · intro r hr
      rw [hreq]
      unfold handleToolsCall
      dsimp only
      rw [htr, hstr, Bool.true_and, if_pos rfl, hname, hr]

/-- Witness for C7, covering all three branches: a numeric name is
rejected; a throwing Manager call maps to an internal error; a returned
result with isError set is forwarded unchanged. -/
theorem C7_witness :
    jsIsString (jsOptMember (.obj [("name", .num 3)]) "name") = false ∧
    handleRequest wRegistry wDelegateOk 5
        { id := some (.num 9), method := "tools/call", params := .obj [("name", .num 3)] } =
      ({ id := some (.num 9),
         error := some (INVALID_PARAMS, "Missing 'name' in tools/call params") }, []) ∧
    handleRequest wRegistry wDelegateThrow 5
        { id := some (.num 9), method := "tools/call", params := .obj [("name", .str "b__t")] } =
      ({ id := some (.num 9), error := some (INTERNAL_ERROR, "boom") },
       [("b__t", routerArgs (.obj [("name", .str "b__t")]))]) ∧
    handleRequest wRegistry wDelegateIsErr 5
        { id := some (.num 9), method := "tools/call", params := .obj [("name", .str "b__t")] } =
      ({ id := some (.num 9),
         result := some (.callResult { content := [], isError := some true }) },
       [("b__t", routerArgs (.obj [("name", .str "b__t")]))]) :=
  ⟨rfl,
   (C7_tools_call_routing wRegistry wDelegateOk 5 (some (.num 9)) (.obj [("name", .num 3)])).1 rfl,
   ((C7_tools_call_routing wRegistry wDelegateThrow 5 (some (.num 9))
       (.obj [("name", .str "b__t")])).2 "b__t" rfl (by decide)).1 "boom" rfl,
   ((C7_tools_call_routing wRegistry wDelegateIsErr 5 (some (.num 9))
       (.obj [("name", .str "b__t")])).2 "b__t" rfl (by decide)).2
     { content := [], isError := some true } rfl⟩

/-- C10: a tools/call whose params.name is the empty string is rejected
with the invalid-params error and never reaches Manager.callTool, because
the presence check `!params?.name` is a JS falsiness check and "" is
falsy, even though the name is present and is a string. -/
theorem C10_empty_name_rejected (st : ManagerState)
    (delegate : String → ToolCallParams → Except String ToolCallResult)
    (dur : Nat) (id : Option RpcId) (params : JsValue)
    (h : jsOptMember params "name" = .str "") :
    handleRequest st delegate dur { id := id, method := "tools/call", params := params } =
      ({ id := id, error := some (INVALID_PARAMS, "Missing 'name' in tools/call params") }, []) := by
  show handleToolsCall st delegate dur id params = _
  unfold handleToolsCall
  dsimp only
  have hcond : (jsTruthy (jsOptMember params "name") &&
      jsIsString (jsOptMember params "name")) = false := by
    rw [h]
    rfl
  rw [hcond]
  rfl

/-- Witness for C10: the name is present and is a string, yet empty. -/
theorem C10_witness :
    jsOptMember (.obj [("name", .str "")]) "name" = .str "" ∧
    jsIsString (jsOptMember (.obj [("name", .str "")]) "name") = true ∧
    handleRequest wRegistry wDelegateOk 5
        { id := some (.num 9), method := "tools/call", params := .obj [("name", .str "")] } =
      ({ id := some (.num 9),
         error := some (INVALID_PARAMS, "Missing 'name' in tools/call params") }, []) :=
  ⟨rfl, rfl,
   C10_empty_name_rejected wRegistry wDelegateOk 5 (some (.num 9)) (.obj [("name", .str "")]) rfl⟩

/-- Map.set with a key not yet present appends the entry at the end. -/
theorem set_fresh (st : ManagerState) (k : String) (c : ClientConn)
    (h : k ∉ ManagerState.keys st) : ManagerState.set st k c = st ++ [(k, c)] := by
  induction st with
  | nil => rfl
  | cons p rest ih =>
    obtain ⟨k', c'⟩ := p
    have hk : ¬ (k' = k) := by
      intro he
      exact h (by simp [ManagerState.keys, he])
    have hrest : k ∉ ManagerState.keys rest := by
      intro hm
      refine h ?_
      simp only [ManagerState.keys, List.map_cons, List.mem_cons]
      exact Or.inr hm
    simp only [ManagerState.set]
    rw [if_neg hk, ih hrest]
    rfl

/-- Characterization of the caught-per-config connect fold: with fresh,
pairwise-distinct backend names, each fully successful config appends its
backend, each failing config is skipped, and the iteration always reaches
the end of the list. -/
theorem connect_fold (oracle : McpServerConfig → ConnectSteps)
    (l : List McpServerConfig) :
    ∀ (st : ManagerState), (ManagerState.keys st ++ l.map (·.name)).Nodup →
      l.foldl (connectStep oracle) st =
        st ++ l.filterMap (fun cfg =>
          match oracle cfg with
          | .ok tools => some (cfg.name, { tools := tools })
          | _ => none) := by
  induction l with
  | nil =>
    intro st _
    simp
  | cons cfg l' ih =>
    intro st h
    have hfresh : cfg.name ∉ ManagerState.keys st := by
      rcases List.nodup_append.mp h with ⟨_, _, hdisj⟩
      intro hmem
      exact hdisj hmem (by simp)
    have htail : (ManagerState.keys st ++ l'.map (·.name)).Nodup := by
      refine List.Nodup.sublist ?_ h
      exact List.Sublist.append_left (List.sublist_cons_self _ _) (ManagerState.keys st)
    rw [List.foldl_cons, List.filterMap_cons]
    cases ho : oracle cfg with
    | ok tools =>
      have hstep : connectStep oracle st cfg = st ++ [(cfg.name, { tools := tools })] := by
        simp only [connectStep, managerConnect, ho]
        exact set_fresh st cfg.name { tools := tools } hfresh
      rw [hstep]
      have hkeys : (ManagerState.keys (st ++ [(cfg.name, ({ tools := tools } : ClientConn))]) ++
          l'.map (·.name)).Nodup := by
        have hk : ManagerState.keys (st ++ [(cfg.name, ({ tools := tools } : ClientConn))]) =
            ManagerState.keys st ++ [cfg.name] := by
          simp [ManagerState.keys]
        rw [hk, List.append_assoc]
        simpa using h
      rw [ih _ hkeys, List.append_assoc]
      rfl
    | startFail e =>
      have hstep : connectStep oracle st cfg = st := by
        simp only [connectStep, managerConnect, ho]
      rw [hstep, ih st htail]
    | handshakeFail e =>
      have hstep : connectStep oracle st cfg = st := by
        simp only [connectStep, managerConnect, ho]
      rw [hstep, ih st htail]
    | discoveryFail e =>
      have hstep : connectStep oracle st cfg = st := by
        simp only [connectStep, managerConnect, ho]
      rw [hstep, ih st htail]

/-- C8: connectAll attempts a connection for every enabled config in order;
a failure in the spawn, handshake or discovery step of one backend is
caught and the remaining configs are still attempted; a backend enters the
registry only when all three steps succeeded.  Hence (for fresh, distinct
backend names) the final registry is the initial one extended by exactly
the fully successful enabled configs, in order — never a half-initialized
one. -/
theorem C8_connect_all_best_effort (st : ManagerState)
    (oracle : McpServerConfig → ConnectSteps) (servers : List McpServerConfig)
    (h : (ManagerState.keys st ++ (servers.filter (·.enabled)).map (·.name)).Nodup) :
    managerConnectAll st oracle servers =
      st ++ (servers.filter (·.enabled)).filterMap (fun cfg =>
        match oracle cfg with
        | .ok tools => some (cfg.name, { tools := tools })
        | _ => none) := by
  unfold managerConnectAll
  exact connect_fold oracle (servers.filter (·.enabled)) st h

/-- Witness for C8: three enabled backends "a", "b", "c" of which "b" fails
to spawn; the other two are registered, in order, and their tools are
queryable through listAllTools. -/
theorem C8_witness :
    ((ManagerState.keys [] ++
        ([wCfgA, wCfgB, wCfgC].filter (·.enabled)).map (·.name)).Nodup) ∧
    managerConnectAll [] wOutcome [wCfgA, wCfgB, wCfgC] =
      [] ++ ([wCfgA, wCfgB, wCfgC].filter (·.enabled)).filterMap (fun cfg =>
        match wOutcome cfg with
        | .ok tools => some (cfg.name, { tools := tools })
        | _ => none) ∧
    ManagerState.keys (managerConnectAll [] wOutcome [wCfgA, wCfgB, wCfgC]) = ["a", "c"] ∧
    listAllTools (managerConnectAll [] wOutcome [wCfgA, wCfgB, wCfgC]) =
      [{ name := "a__t", description := none, inputSchema := .obj [] },
       { name := "c__t", description := none, inputSchema := .obj [] }] :=
  ⟨by decide, C8_connect_all_best_effort [] wOutcome [wCfgA, wCfgB, wCfgC] (by decide),
   rfl, rfl⟩

end McpCentral
